import Mathlib

/-!
A shallow embedding of `src/HM1_B-1970082/src/model.py` (class `LSTMClassifier`,
a PyTorch `nn.Module`) over exact rational arithmetic.

Modelling conventions:

* Tensors are lists of rationals (`Vec`) and lists of rows (`Mat`).
* Random draws made by the initialisation primitives (`init.normal_`,
  `init.uniform_`, `nn.init.xavier_uniform_`) are modelled by an oracle
  `Rng : String → Nat → Nat → ℚ` giving, for each parameter-tensor name and
  entry position, the value that the primitive sampled there.  A draw of
  `xavier_uniform_` stands for a sample of `U(-a, a)` with
  `a = sqrt(6 / (fan_in + fan_out))`; only which entries are sampled (all of
  them) and their genericity (nonzero with probability one) matter to the
  properties proved below.
* Dropout masks are Boolean oracles: `keep = true` means the Bernoulli draw
  kept the unit.  `torch.nn.functional.dropout` scales kept entries by
  `1/(1-p)` during training and zeroes dropped ones; with `p = 0` nothing is
  ever dropped (the Bernoulli drop probability is `0`), and in eval mode the
  function is the identity.
* The LSTM gate nonlinearities (logistic sigmoid and tanh) are real-valued, so
  the recurrence is parametrised by two functions `σ τ : ℚ → ℚ`; every theorem
  below holds for all choices of `σ` and `τ`.
* Fallible library calls (constructor validation, embedding lookup) are
  modelled in `Except String`.
-/

/-- A tensor row: a list of rationals. -/
abbrev Vec := List ℚ

/-- A 2-D tensor: a list of rows. -/
abbrev Mat := List Vec

/-- Dot product, truncating at the shorter argument (shapes always agree in the
model built by construction). -/
def dot (a b : Vec) : ℚ := (List.zipWith (· * ·) a b).sum

/-- Pointwise sum. -/
def vadd (a b : Vec) : Vec := List.zipWith (· + ·) a b

/-- Pointwise (Hadamard) product. -/
def hmul (a b : Vec) : Vec := List.zipWith (· * ·) a b

/-- Matrix–vector product, one dot product per row. -/
def matVec (W : Mat) (v : Vec) : Vec := W.map (fun r => dot r v)

/-- Every entry of the vector is zero. -/
def allZero (v : Vec) : Prop := ∀ q ∈ v, q = 0

/-- Some entry of the matrix is nonzero. -/
def hasNonzero (M : Mat) : Prop := ∃ r ∈ M, ∃ q ∈ r, q ≠ 0

/-- `startsWithChars n h`: the char list `n` is a prefix of `h`. -/
def startsWithChars : List Char → List Char → Bool
  | [], _ => true
  | _ :: _, [] => false
  | a :: as, b :: bs => a == b && startsWithChars as bs

/-- `hasSubstrChars h n`: the char list `n` occurs contiguously in `h`. -/
def hasSubstrChars : List Char → List Char → Bool
  | [], n => n.isEmpty
  | h :: t, n => startsWithChars n (h :: t) || hasSubstrChars t n

/-- Python's `sub in s` on strings: contiguous-substring containment.
Used by `_init_weights` for the checks `'weight' in name` / `'bias' in name`. -/
def strContains (s pat : String) : Bool := hasSubstrChars s.data pat.data

/-- `f`-image with the position index, starting at `n`. -/
def enumMapFrom (f : Nat → α → β) : Nat → List α → List β
  | _, [] => []
  | n, a :: as => f n a :: enumMapFrom f (n + 1) as

/-- `f`-image with the position index (0-based). -/
def enumMap (f : Nat → α → β) (l : List α) : List β := enumMapFrom f 0 l

/-- Sequential fallible map, failing at the first failure, as iterating a
throwing library call does in Python. -/
def seqMap (f : α → Except String β) : List α → Except String (List β)
  | [] => .ok []
  | a :: as => do
    let b ← f a
    let bs ← seqMap f as
    pure (b :: bs)

/-- The constructor arguments of `LSTMClassifier.__init__`, with the source's
default values.  Python integers are modelled as `Int` (they may be negative in
invalid configurations), the dropout probability as `ℚ`. -/
structure Config where
  vocab_size : Int
  embedding_dim : Int
  hidden_dim : Int
  output_dim : Int
  padding_idx : Int
  bidirectional : Bool := false
  num_layers : Int := 2
  dropout_rate : ℚ := (1 : ℚ) / 2

/-- Oracle for the values sampled by the initialisation primitives, keyed by
parameter-tensor name and entry position. -/
abbrev Rng := String → Nat → Nat → ℚ

/-- One direction of one `nn.LSTM` layer: the packed input-hidden and
hidden-hidden weight matrices (4·hidden rows: input, forget, cell, output
gates) and the two packed bias vectors. -/
structure LSTMLayerParams where
  weight_ih : Mat
  weight_hh : Mat
  bias_ih : Vec
  bias_hh : Vec

/-- A stacked-LSTM layer: forward-direction parameters, and reverse-direction
parameters exactly when the LSTM is bidirectional. -/
abbrev LSTMLayer := LSTMLayerParams × Option LSTMLayerParams

/-- The state of a constructed `LSTMClassifier`: the module tree built by
`__init__` (`self.embedding`, `self.lstm`, `self.fc`, `self.dropout`) plus the
`nn.Module` training flag (`True` on a fresh module). -/
structure LSTMClassifier where
  vocab_size : Nat
  embedding_dim : Nat
  padding_idx : Nat
  embedding_weight : Mat
  hidden_dim : Nat
  num_layers : Nat
  bidirectional : Bool
  lstm_dropout : ℚ
  layers : List LSTMLayer
  fc_in_features : Nat
  fc_out_features : Nat
  fc_weight : Mat
  fc_bias : Vec
  dropout_p : ℚ
  training : Bool

/-- An `r × c` matrix filled from a draw oracle. -/
def fillMat (draw : Nat → Nat → ℚ) (r c : Nat) : Mat :=
  (List.range r).map (fun i => (List.range c).map (fun j => draw i j))

/-- A length-`n` vector filled from a draw oracle. -/
def fillVec (draw : Nat → ℚ) (n : Nat) : Vec :=
  (List.range n).map draw

/-- Replace row `i` of a matrix. -/
def setRow (M : Mat) (i : Nat) (v : Vec) : Mat := M.set i v

/-- The registered name of an `nn.LSTM` parameter inside this module:
`lstm.{kind}_l{layer}` with suffix `_reverse` for the backward direction. -/
def lstmParamName (kind : String) (l : Nat) (rev : Bool) : String :=
  ("lstm." ++ kind ++ "_l" ++ Nat.repr l ++ (if rev then ("_reverse") else ("")))

/-- `_init_weights` on a 2-D parameter: `nn.init.xavier_uniform_` when the
name contains `'weight'` (a fresh draw for every entry — including, for
`embedding.weight`, the padding row), `nn.init.zeros_` when it contains
`'bias'`, untouched otherwise. -/
def dispatchMat (rng : Rng) (name : String) (r c : Nat) (old : Mat) : Mat :=
  if strContains name ("weight") then fillMat (rng name) r c
  else if strContains name ("bias") then (List.range r).map (fun _ => List.replicate c 0)
  else old

/-- `_init_weights` on a 1-D parameter.  Every 1-D parameter of this module is
an LSTM or Linear bias whose name contains `'bias'` and not `'weight'`; the
`'weight'` branch (on which `xavier_uniform_` would raise for a 1-D tensor) is
never taken and keeps the tensor unchanged here. -/
def dispatchVec (_rng : Rng) (name : String) (n : Nat) (old : Vec) : Vec :=
  if strContains name ("weight") then old
  else if strContains name ("bias") then List.replicate n 0
  else old

/-- Input width of LSTM layer `l`: `embedding_dim` for layer 0, otherwise
`hidden_dim · num_directions`. -/
def lstmInDim (embDim hidDim : Nat) (bidir : Bool) (l : Nat) : Nat :=
  if l = 0 then embDim else hidDim * (if bidir then 2 else 1)

/-- `nn.LSTM`'s own `reset_parameters` for one direction of one layer:
every tensor filled with `U(-1/sqrt(hidden), 1/sqrt(hidden))` draws (modelled
by the oracle under a `reset:`-prefixed key). -/
def resetLayerParams (rng : Rng) (H inDim : Nat) (l : Nat) (rev : Bool) : LSTMLayerParams :=
  { weight_ih := fillMat (rng (("reset:") ++ lstmParamName ("weight_ih") l rev)) (4 * H) inDim
    weight_hh := fillMat (rng (("reset:") ++ lstmParamName ("weight_hh") l rev)) (4 * H) H
    bias_ih := fillVec (fun i => rng (("reset:") ++ lstmParamName ("bias_ih") l rev) i 0) (4 * H)
    bias_hh := fillVec (fun i => rng (("reset:") ++ lstmParamName ("bias_hh") l rev) i 0) (4 * H) }

/-- `_init_weights` on one direction of one layer: each of the four parameters
re-initialised through the name dispatch. -/
def initLayerParams (rng : Rng) (H inDim : Nat) (l : Nat) (rev : Bool)
    (p : LSTMLayerParams) : LSTMLayerParams :=
  { weight_ih := dispatchMat rng (lstmParamName ("weight_ih") l rev) (4 * H) inDim p.weight_ih
    weight_hh := dispatchMat rng (lstmParamName ("weight_hh") l rev) (4 * H) H p.weight_hh
    bias_ih := dispatchVec rng (lstmParamName ("bias_ih") l rev) (4 * H) p.bias_ih
    bias_hh := dispatchVec rng (lstmParamName ("bias_hh") l rev) (4 * H) p.bias_hh }

namespace LSTMClassifier

/-- The `padding_idx` normalisation performed by `nn.Embedding.__init__`:
a negative index is interpreted Python-style as `num_embeddings + padding_idx`. -/
def paddingNorm (V p : Int) : Int := if p < 0 then V + p else p

/-- The `assert` guarding `padding_idx` in `nn.Embedding.__init__`:
`padding_idx > 0` requires `padding_idx < num_embeddings`, `padding_idx < 0`
requires `padding_idx ≥ -num_embeddings`; `padding_idx = 0` is not checked
there (it is only exercised later, by the zero-fill of the padding row). -/
def embeddingAssert (V p : Int) : Prop :=
  if 0 < p then p < V else if p < 0 then -V ≤ p else True

instance (V p : Int) : Decidable (embeddingAssert V p) := by
  unfold embeddingAssert; split <;> [infer_instance; skip]; split <;> infer_instance

/-- The LSTM dropout argument built by `__init__`:
`dropout_rate if num_layers > 1 else 0`. -/
def lstmDropoutArg (cfg : Config) : ℚ :=
  if 1 < cfg.num_layers then cfg.dropout_rate else 0

/-- The module state right after the body of `__init__` has assigned
`self.embedding`, `self.lstm`, `self.fc` and `self.dropout`, before the final
`self._init_weights()` call.  Each submodule carries its own
`reset_parameters` initialisation; in particular `nn.Embedding` fills its
weight with normal draws and then zeroes the (normalised) padding row. -/
def baseModel (cfg : Config) (rng : Rng) : LSTMClassifier :=
  let V := cfg.vocab_size.toNat
  let E := cfg.embedding_dim.toNat
  let H := cfg.hidden_dim.toNat
  let O := cfg.output_dim.toNat
  let L := cfg.num_layers.toNat
  let dirs := if cfg.bidirectional then 2 else 1
  { vocab_size := V
    embedding_dim := E
    padding_idx := (paddingNorm cfg.vocab_size cfg.padding_idx).toNat
    embedding_weight :=
      setRow (fillMat (rng ("reset:embedding.weight")) V E)
        (paddingNorm cfg.vocab_size cfg.padding_idx).toNat (List.replicate E 0)
    hidden_dim := H
    num_layers := L
    bidirectional := cfg.bidirectional
    lstm_dropout := lstmDropoutArg cfg
    layers :=
      (List.range L).map (fun l =>
        (resetLayerParams rng H (lstmInDim E H cfg.bidirectional l) l false,
         if cfg.bidirectional then
           some (resetLayerParams rng H (lstmInDim E H cfg.bidirectional l) l true)
         else none))
    fc_in_features := H * dirs
    fc_out_features := O
    fc_weight := fillMat (rng ("reset:fc.weight")) O (H * dirs)
    fc_bias := fillVec (fun i => rng ("reset:fc.bias") i 0) O
    dropout_p := cfg.dropout_rate
    training := true }

/-- `self._init_weights()`: iterate `self.named_parameters()`
(`embedding.weight`, then per layer and direction `lstm.weight_ih_l{l}`,
`lstm.weight_hh_l{l}`, `lstm.bias_ih_l{l}`, `lstm.bias_hh_l{l}` with optional
`_reverse` suffix, then `fc.weight`, `fc.bias`) and re-initialise each through
the `'weight' in name` / `'bias' in name` dispatch. -/
def _init_weights (rng : Rng) (m : LSTMClassifier) : LSTMClassifier :=
  { m with
    embedding_weight :=
      dispatchMat rng ("embedding.weight") m.vocab_size m.embedding_dim m.embedding_weight
    layers :=
      enumMap (fun l pq =>
        (initLayerParams rng m.hidden_dim
            (lstmInDim m.embedding_dim m.hidden_dim m.bidirectional l) l false pq.1,
         pq.2.map (initLayerParams rng m.hidden_dim
            (lstmInDim m.embedding_dim m.hidden_dim m.bidirectional l) l true))) m.layers
    fc_weight := dispatchMat rng ("fc.weight") m.fc_out_features m.fc_in_features m.fc_weight
    fc_bias := dispatchVec rng ("fc.bias") m.fc_out_features m.fc_bias }

/-- The model produced by a successful `LSTMClassifier(...)` call: the module
tree of `__init__` followed by the `self._init_weights()` pass. -/
def initModel (cfg : Config) (rng : Rng) : LSTMClassifier :=
  _init_weights rng (baseModel cfg rng)

/-- `LSTMClassifier.__init__`, including the validation performed by the
PyTorch submodule constructors, in source order:

1. `nn.Embedding(vocab_size, embedding_dim, padding_idx=padding_idx)`:
   the `padding_idx` asserts, the `torch.empty((num_embeddings,
   embedding_dim))` allocation (rejecting negative sizes), and
   `reset_parameters`' zero-fill `self.weight[padding_idx].fill_(0)`
   (an `IndexError` when the normalised index is out of bounds — in
   particular whenever `vocab_size = 0`).
2. `nn.LSTM(...)`: `torch.empty` on `(4·hidden, ·)` (rejecting a negative
   `hidden_dim`), the `num_layers > 0` validation, and the
   `0 ≤ dropout ≤ 1` validation of the dropout argument (which is
   `dropout_rate if num_layers > 1 else 0`; a `dropout_rate > 0` with a
   single layer only warns).
3. `nn.Linear(lstm_output_dim, output_dim)`: `torch.empty` rejecting a
   negative `output_dim`.
4. `nn.Dropout(dropout_rate)`: raises unless `0 ≤ p ≤ 1` (note: `p = 1`
   is accepted).
5. `self._init_weights()`: never raises here (every `'weight'` parameter
   of this module is 2-D). -/
def init (cfg : Config) (rng : Rng) : Except String LSTMClassifier :=
  if ¬ embeddingAssert cfg.vocab_size cfg.padding_idx then
    .error ("AssertionError: Padding_idx must be within num_embeddings")
  else if cfg.vocab_size < 0 ∨ cfg.embedding_dim < 0 then
    .error ("RuntimeError: Trying to create tensor with negative dimension")
  else if ¬ (0 ≤ paddingNorm cfg.vocab_size cfg.padding_idx ∧
             paddingNorm cfg.vocab_size cfg.padding_idx < cfg.vocab_size) then
    .error ("IndexError: index out of range when zero-filling the padding row")
  else if cfg.hidden_dim < 0 then
    .error ("RuntimeError: Trying to create tensor with negative dimension")
  else if cfg.num_layers ≤ 0 then
    .error ("ValueError: num_layers must be greater than zero")
  else if ¬ (0 ≤ lstmDropoutArg cfg ∧ lstmDropoutArg cfg ≤ 1) then
    .error ("ValueError: dropout should be a number in range [0, 1]")
  else if cfg.output_dim < 0 then
    .error ("RuntimeError: Trying to create tensor with negative dimension")
  else if ¬ (0 ≤ cfg.dropout_rate ∧ cfg.dropout_rate ≤ 1) then
    .error ("ValueError: dropout probability has to be between 0 and 1")
  else
    .ok (initModel cfg rng)

/-- `module.eval()`: leave inference mode on. -/
def eval (m : LSTMClassifier) : LSTMClassifier := { m with training := false }

/-- `module.train()`: training mode on. -/
def train (m : LSTMClassifier) : LSTMClassifier := { m with training := true }

end LSTMClassifier

/-- `torch.nn.functional.dropout` on one entry, given the Bernoulli keep draw
for that entry: identity in eval mode; in training mode, dropping happens with
probability `p` — never when `p = 0` — and kept entries are rescaled by
`1/(1-p)`. -/
def dropoutVal (training : Bool) (p : ℚ) (keep : Bool) (v : ℚ) : ℚ :=
  if ¬ training then v
  else if p = 0 then v
  else if keep then v / (1 - p) else 0

/-- Dropout over a (positions × features) slice, with a per-entry mask oracle. -/
def dropoutMat (training : Bool) (p : ℚ) (mask : Nat → Nat → Bool) (xs : Mat) : Mat :=
  enumMap (fun t row => enumMap (fun j v => dropoutVal training p (mask t j) v) row) xs

/-- One LSTM cell step (`torch` gate order `i, f, g, o` packed along the rows
of `weight_ih`/`weight_hh`): returns the new hidden and cell states.  `σ` is
the logistic sigmoid, `τ` is tanh. -/
def lstmCell (σ τ : ℚ → ℚ) (H : Nat) (p : LSTMLayerParams) (x h c : Vec) : Vec × Vec :=
  let g := vadd (vadd (matVec p.weight_ih x) p.bias_ih)
                (vadd (matVec p.weight_hh h) p.bias_hh)
  let i := (g.take H).map σ
  let f := ((g.drop H).take H).map σ
  let gg := ((g.drop (2 * H)).take H).map τ
  let o := ((g.drop (3 * H)).take H).map σ
  let c2 := vadd (hmul f c) (hmul i gg)
  let h2 := hmul o (c2.map τ)
  (h2, c2)

/-- Run one LSTM direction over a sequence from the given hidden and cell
states; returns the per-step hidden outputs and the final hidden state. -/
def lstmSeqFrom (σ τ : ℚ → ℚ) (H : Nat) (p : LSTMLayerParams) (h c : Vec) :
    List Vec → List Vec × Vec
  | [] => ([], h)
  | x :: xs =>
    let hc := lstmCell σ τ H p x h c
    let rest := lstmSeqFrom σ τ H p hc.1 hc.2 xs
    (hc.1 :: rest.1, rest.2)

/-- Run one LSTM direction from the default all-zero initial hidden and cell
states (`torch.nn.LSTM` with no `(h_0, c_0)` argument). -/
def lstmSeq (σ τ : ℚ → ℚ) (H : Nat) (p : LSTMLayerParams) (xs : List Vec) :
    List Vec × Vec :=
  lstmSeqFrom σ τ H p (List.replicate H 0) (List.replicate H 0) xs

/-- One stacked-LSTM layer on one batch element: the forward direction, and —
when the layer is bidirectional — a mirrored pass over the reversed sequence,
with per-step outputs concatenated feature-wise.  Returns the layer's output
sequence and its final hidden states (`[h_fwd]`, or `[h_fwd, h_bwd]` in
`h_n`'s direction order). -/
def lstmApplyLayer (σ τ : ℚ → ℚ) (H : Nat) (ℓ : LSTMLayer) (xs : List Vec) :
    List Vec × List Vec :=
  match ℓ.2 with
  | none =>
    let r := lstmSeq σ τ H ℓ.1 xs
    (r.1, [r.2])
  | some pb =>
    let rf := lstmSeq σ τ H ℓ.1 xs
    let rb := lstmSeq σ τ H pb xs.reverse
    (List.zipWith (· ++ ·) rf.1 rb.1.reverse, [rf.2, rb.2])

/-- The stacked LSTM on one batch element, layer `li` onward: each layer feeds
the next, with inter-layer dropout (probability `pd`, mask oracle indexed by
layer) applied to every layer output except the last layer's, and only in
training mode — exactly `torch`'s placement of the `nn.LSTM` `dropout`
argument.  Returns the last layer's output sequence and the concatenation of
all layers' final hidden states (`h_n` order: layer-major, direction-minor). -/
def lstmStack (σ τ : ℚ → ℚ) (H : Nat) (training : Bool) (pd : ℚ)
    (mask : Nat → Nat → Nat → Bool) : Nat → List LSTMLayer → List Vec → List Vec × List Vec
  | _, [], xs => (xs, [])
  | li, ℓ :: rest, xs =>
    let r := lstmApplyLayer σ τ H ℓ xs
    let out :=
      match rest with
      | [] => r.1
      | _ :: _ => dropoutMat training pd (mask li) r.1
    let rr := lstmStack σ τ H training pd mask (li + 1) rest out
    (rr.1, r.2 ++ rr.2)

/-- The final hidden states `h_n` (flattened over layer and direction) of
`self.lstm` run on one batch element from zero initial state. -/
def lstmFinalStates (σ τ : ℚ → ℚ) (H : Nat) (training : Bool) (pd : ℚ)
    (mask : Nat → Nat → Nat → Bool) (layers : List LSTMLayer) (xs : List Vec) : List Vec :=
  (lstmStack σ τ H training pd mask 0 layers xs).2

/-- The hidden-state selection of `forward`:
`torch.cat((hidden[-2, :, :], hidden[-1, :, :]), dim=1)` when
`self.lstm.bidirectional`, else `hidden[-1]` — on one batch element, `h_n`'s
penultimate and last rows. -/
def classifierFeatures (bidir : Bool) (hs : List Vec) : Vec :=
  if bidir then hs.dropLast.getLastD [] ++ hs.getLastD []
  else hs.getLastD []

namespace LSTMClassifier

/-- `self.embedding(x)` on one token index: row `i` of the embedding weight;
`torch.embedding` raises `IndexError` for a negative index or an index not
below `num_embeddings` (negative indices are NOT wrapped here). -/
def embedLookup (m : LSTMClassifier) (i : Int) : Except String Vec :=
  if 0 ≤ i ∧ i < (m.vocab_size : Int) then
    .ok (m.embedding_weight.getD i.toNat (List.replicate m.embedding_dim 0))
  else .error ("IndexError: index out of range in self")

/-- `LSTMClassifier.forward(x)` for a batch of token-index rows
(`batch_first=True`):
embedding lookup, dropout on the embedded sequence, the stacked LSTM from zero
initial state, selection of the last layer's final hidden state(s), and the
affine projection `self.fc` — no activation.  `dmask b t j` is the embedding
dropout draw for batch element `b`, position `t`, feature `j`; `lmask b li t j`
the inter-layer LSTM dropout draw. -/
def forward (σ τ : ℚ → ℚ) (m : LSTMClassifier)
    (dmask : Nat → Nat → Nat → Bool) (lmask : Nat → Nat → Nat → Nat → Bool)
    (x : List (List Int)) : Except String Mat := do
  let embedded ← seqMap (fun row => seqMap (embedLookup m) row) x
  let dropped := enumMap (fun b seq => dropoutMat m.training m.dropout_p (dmask b) seq) embedded
  pure (enumMap (fun b seq =>
    vadd
      (matVec m.fc_weight
        (classifierFeatures m.bidirectional
          (lstmFinalStates σ τ m.hidden_dim m.training m.lstm_dropout (lmask b) m.layers seq)))
      m.fc_bias) dropped)

end LSTMClassifier

/-- The conjunction of all validation checks passed by a successful
`LSTMClassifier(...)` call, in constructor order. -/
def validChecks (cfg : Config) : Prop :=
  LSTMClassifier.embeddingAssert cfg.vocab_size cfg.padding_idx ∧
  ¬ (cfg.vocab_size < 0 ∨ cfg.embedding_dim < 0) ∧
  (0 ≤ LSTMClassifier.paddingNorm cfg.vocab_size cfg.padding_idx ∧
   LSTMClassifier.paddingNorm cfg.vocab_size cfg.padding_idx < cfg.vocab_size) ∧
  ¬ (cfg.hidden_dim < 0) ∧
  ¬ (cfg.num_layers ≤ 0) ∧
  (0 ≤ LSTMClassifier.lstmDropoutArg cfg ∧ LSTMClassifier.lstmDropoutArg cfg ≤ 1) ∧
  ¬ (cfg.output_dim < 0) ∧
  (0 ≤ cfg.dropout_rate ∧ cfg.dropout_rate ≤ 1)

/-- The constant-one draw oracle: every sampled value is `1` (a draw that a
continuous sampler produces with a generic, nonzero value). -/
def rngOne : Rng := fun _ _ _ => 1

/-- A small fully valid configuration: `vocab_size=2, embedding_dim=1,
hidden_dim=1, output_dim=1, padding_idx=0`, unidirectional, one layer,
dropout `0`. -/
def cfgSmall : Config :=
  { vocab_size := 2, embedding_dim := 1, hidden_dim := 1, output_dim := 1,
    padding_idx := 0, bidirectional := false, num_layers := 1, dropout_rate := 0 }

/-- A configuration that is invalid per the spec's construction contract in
three independent ways (`padding_idx = -1 ∉ [0, vocab_size)`,
`output_dim = 0 < 1`, `dropout_rate = 1 ∉ [0,1)`). -/
def cfgInvalidOk : Config :=
  { vocab_size := 5, embedding_dim := 2, hidden_dim := 3, output_dim := 0,
    padding_idx := -1, bidirectional := false, num_layers := 1, dropout_rate := 1 }

/-! ### Helper lemmas: substring containment, digits of `Nat.repr` -/

/-- The ten decimal digit characters. -/
def digitChars : List Char := ['0', '1', '2', '3', '4', '5', '6', '7', '8', '9']

theorem startsWithChars_append {n h : List Char} (t : List Char)
    (hs : startsWithChars n h = true) : startsWithChars n (h ++ t) = true := by
  induction n generalizing h with
  | nil => simp [startsWithChars]
  | cons a as ih =>
    cases h with
    | nil => simp [startsWithChars] at hs
    | cons b bs =>
      simp only [startsWithChars, Bool.and_eq_true] at hs ⊢
      exact ⟨hs.1, ih hs.2⟩

theorem hasSubstrChars_append_left {h : List Char} (t : List Char) {n : List Char}
    (hs : hasSubstrChars h n = true) : hasSubstrChars (h ++ t) n = true := by
  induction h with
  | nil =>
    simp only [hasSubstrChars] at hs
    cases n with
    | nil => cases t <;> simp [hasSubstrChars, startsWithChars]
    | cons a as => simp [List.isEmpty] at hs
  | cons b bs ih =>
    simp only [hasSubstrChars, Bool.or_eq_true] at hs ⊢
    rcases hs with hs | hs
    · exact Or.inl (startsWithChars_append t hs)
    · exact Or.inr (ih hs)

theorem strContains_append_left (a b pat : String)
    (h : strContains a pat = true) : strContains (a ++ b) pat = true := by
  simpa [strContains, String.data_append] using hasSubstrChars_append_left b.data h

theorem hasSubstrChars_head_mem {h : List Char} {a : Char} {as : List Char}
    (hs : hasSubstrChars h (a :: as) = true) : a ∈ h := by
  induction h with
  | nil => simp [hasSubstrChars, List.isEmpty] at hs
  | cons b bs ih =>
    simp only [hasSubstrChars, Bool.or_eq_true] at hs
    rcases hs with hs | hs
    · simp only [startsWithChars, Bool.and_eq_true, beq_iff_eq] at hs
      simp [hs.1]
    · exact List.mem_cons_of_mem _ (ih hs)

theorem digitChar_mem_digitChars {m : Nat} (hm : m < 10) : Nat.digitChar m ∈ digitChars := by
  interval_cases m <;> decide

theorem toDigitsCore_mem {c : Char} :
    ∀ (fuel n : Nat) (ds : List Char), c ∈ Nat.toDigitsCore 10 fuel n ds →
      c ∈ digitChars ∨ c ∈ ds := by
  intro fuel
  induction fuel with
  | zero =>
    intro n ds h
    simp only [Nat.toDigitsCore] at h
    exact Or.inr h
  | succ fuel ih =>
    intro n ds h
    simp only [Nat.toDigitsCore] at h
    by_cases hz : n / 10 = 0
    · rw [if_pos hz] at h
      rcases List.mem_cons.mp h with h | h
      · exact Or.inl (by rw [h]; exact digitChar_mem_digitChars (Nat.mod_lt _ (by norm_num)))
      · exact Or.inr h
    · rw [if_neg hz] at h
      rcases ih _ _ h with h | h
      · exact Or.inl h
      · rcases List.mem_cons.mp h with h | h
        · exact Or.inl (by rw [h]; exact digitChar_mem_digitChars (Nat.mod_lt _ (by norm_num)))
        · exact Or.inr h

theorem repr_data_mem {c : Char} {n : Nat} (h : c ∈ (Nat.repr n).data) : c ∈ digitChars := by
  simp only [Nat.repr, Nat.toDigits, List.asString] at h
  rcases toDigitsCore_mem _ _ _ h with h | h
  · exact h
  · simp at h

/-! ### Parameter names and the `_init_weights` dispatch -/

theorem lstmParamName_eq (kind : String) (l : Nat) (rev : Bool) :
    lstmParamName kind l rev =
      ((("lstm." ++ kind) ++ "_l") ++ Nat.repr l) ++ (if rev then ("_reverse") else ("")) := rfl

theorem weight_ih_name_contains (l : Nat) (rev : Bool) :
    strContains (lstmParamName ("weight_ih") l rev) ("weight") = true := by
  rw [lstmParamName_eq]
  exact strContains_append_left _ _ _ (strContains_append_left _ _ _ (by decide))

theorem weight_hh_name_contains (l : Nat) (rev : Bool) :
    strContains (lstmParamName ("weight_hh") l rev) ("weight") = true := by
  rw [lstmParamName_eq]
  exact strContains_append_left _ _ _ (strContains_append_left _ _ _ (by decide))

theorem bias_name_contains_bias (kind : String) (l : Nat) (rev : Bool)
    (hk : strContains ("lstm." ++ kind ++ "_l") ("bias") = true) :
    strContains (lstmParamName kind l rev) ("bias") = true := by
  rw [lstmParamName_eq]
  exact strContains_append_left _ _ _ (strContains_append_left _ _ _ hk)

/-- No character of a bias parameter's registered name is `'w'`, so `'weight'`
cannot occur in it: the layer index contributes only decimal digits and the
optional suffix `_reverse` has no `'w'` either. -/
theorem bias_name_not_weight (kind : String) (l : Nat) (rev : Bool)
    (hw : (Char.ofNat 119) ∉ ("lstm." ++ kind ++ "_l").data) :
    strContains (lstmParamName kind l rev) ("weight") = false := by
  rw [lstmParamName_eq]
  by_contra hcon
  rw [Bool.not_eq_false] at hcon
  have hmem : (Char.ofNat 119) ∈
      (((("lstm." ++ kind) ++ "_l") ++ Nat.repr l) ++
        (if rev then ("_reverse") else (""))).data := by
    have : ("weight").data = (Char.ofNat 119) :: ("eight").data := by decide
    unfold strContains at hcon
    rw [this] at hcon
    exact hasSubstrChars_head_mem hcon
  rw [String.data_append, String.data_append] at hmem
  rcases List.mem_append.mp hmem with hmem | hmem
  · rcases List.mem_append.mp hmem with hmem | hmem
    · exact hw (by simpa [String.data_append] using hmem)
    · have := repr_data_mem hmem
      revert this; decide
  · cases rev <;> revert hmem <;> decide

theorem bias_ih_name_not_weight (l : Nat) (rev : Bool) :
    strContains (lstmParamName ("bias_ih") l rev) ("weight") = false :=
  bias_name_not_weight _ l rev (by decide)

theorem bias_hh_name_not_weight (l : Nat) (rev : Bool) :
    strContains (lstmParamName ("bias_hh") l rev) ("weight") = false :=
  bias_name_not_weight _ l rev (by decide)

/-- `_init_weights` sends every LSTM bias vector to the zero vector. -/
theorem dispatchVec_lstm_bias (rng : Rng) (kind : String) (l : Nat) (rev : Bool) (n : Nat)
    (old : Vec) (hnw : strContains (lstmParamName kind l rev) ("weight") = false)
    (hb : strContains (lstmParamName kind l rev) ("bias") = true) :
    dispatchVec rng (lstmParamName kind l rev) n old = List.replicate n 0 := by
  rw [dispatchVec, hnw, hb]
  simp

theorem dispatchMat_weight (rng : Rng) (name : String) (r c : Nat) (old : Mat)
    (h : strContains name ("weight") = true) :
    dispatchMat rng name r c old = fillMat (rng name) r c := by
  rw [dispatchMat, h]
  simp

/-! ### Shapes and entries of filled tensors -/

theorem fillMat_length (draw : Nat → Nat → ℚ) (r c : Nat) : (fillMat draw r c).length = r := by
  simp [fillMat]

theorem fillMat_row_length (draw : Nat → Nat → ℚ) (r c : Nat) :
    ∀ row ∈ fillMat draw r c, row.length = c := by
  intro row hrow
  rcases List.mem_map.mp hrow with ⟨i, _, rfl⟩
  simp

theorem fillMat_hasNonzero (draw : Nat → Nat → ℚ) (r c : Nat)
    (hr : 0 < r) (hc : 0 < c) (h : draw 0 0 ≠ 0) : hasNonzero (fillMat draw r c) := by
  refine ⟨(List.range c).map (fun j => draw 0 j), ?_, draw 0 0, ?_, h⟩
  · exact List.mem_map.mpr ⟨0, List.mem_range.mpr hr, rfl⟩
  · exact List.mem_map.mpr ⟨0, List.mem_range.mpr hc, rfl⟩

theorem allZero_replicate (n : Nat) : allZero (List.replicate n 0) := by
  intro q hq
  exact List.eq_of_mem_replicate hq

/-! ### `enumMap` and `seqMap` basics -/

theorem enumMapFrom_length (f : Nat → α → β) : ∀ (n : Nat) (l : List α),
    (enumMapFrom f n l).length = l.length := by
  intro n l
  induction l generalizing n with
  | nil => rfl
  | cons a as ih => simp [enumMapFrom, ih]

theorem enumMap_length (f : Nat → α → β) (l : List α) : (enumMap f l).length = l.length :=
  enumMapFrom_length f 0 l

theorem enumMapFrom_mem {f : Nat → α → β} : ∀ {n : Nat} {l : List α} {b : β},
    b ∈ enumMapFrom f n l → ∃ k a, a ∈ l ∧ b = f k a := by
  intro n l
  induction l generalizing n with
  | nil => intro b h; simp [enumMapFrom] at h
  | cons x xs ih =>
    intro b h
    rcases List.mem_cons.mp h with h | h
    · exact ⟨n, x, List.mem_cons_self x xs, h⟩
    · rcases ih h with ⟨k, a, ha, hb⟩
      exact ⟨k, a, List.mem_cons_of_mem _ ha, hb⟩

theorem enumMap_mem {f : Nat → α → β} {l : List α} {b : β}
    (h : b ∈ enumMap f l) : ∃ k a, a ∈ l ∧ b = f k a :=
  enumMapFrom_mem h

theorem enumMapFrom_congr {f g : Nat → α → β} (h : ∀ n a, f n a = g n a) :
    ∀ (n : Nat) (l : List α), enumMapFrom f n l = enumMapFrom g n l := by
  intro n l
  induction l generalizing n with
  | nil => rfl
  | cons a as ih => simp [enumMapFrom, h, ih]

theorem enumMap_congr {f g : Nat → α → β} (h : ∀ n a, f n a = g n a) (l : List α) :
    enumMap f l = enumMap g l :=
  enumMapFrom_congr h 0 l

theorem enumMapFrom_id : ∀ (n : Nat) (l : List α), enumMapFrom (fun _ a => a) n l = l := by
  intro n l
  induction l generalizing n with
  | nil => rfl
  | cons a as ih => simp [enumMapFrom, ih]

theorem seqMap_ok_of_forall {f : α → Except String β} : ∀ {l : List α},
    (∀ a ∈ l, ∃ b, f a = .ok b) → ∃ bl, seqMap f l = .ok bl ∧ bl.length = l.length := by
  intro l
  induction l with
  | nil => intro _; exact ⟨[], rfl, rfl⟩
  | cons a as ih =>
    intro h
    rcases h a (List.mem_cons_self a as) with ⟨b, hb⟩
    rcases ih (fun x hx => h x (List.mem_cons_of_mem _ hx)) with ⟨bl, hbl, hlen⟩
    refine ⟨b :: bl, ?_, by simpa using hlen⟩
    simp only [seqMap, hb, hbl]
    rfl

theorem seqMap_not_ok {f : α → Except String β} {a : α} : ∀ {l : List α},
    a ∈ l → (∀ b, f a ≠ .ok b) → ∀ bl, seqMap f l ≠ .ok bl := by
  intro l
  induction l with
  | nil => intro h; simp at h
  | cons x xs ih =>
    intro hmem hbad bl hok
    rcases List.mem_cons.mp hmem with h | h
    · subst h
      cases hfa : f a with
      | error e => rw [seqMap, hfa] at hok; exact Except.noConfusion hok
      | ok b => exact hbad b hfa
    · cases hfx : f x with
      | error e => rw [seqMap, hfx] at hok; exact Except.noConfusion hok
      | ok b =>
        rw [seqMap, hfx] at hok
        cases hrest : seqMap f xs with
        | error e => rw [hrest] at hok; exact Except.noConfusion hok
        | ok bs => exact ih h hbad bs hrest

theorem not_ok_error {r : Except String β} (h : ∀ bl, r ≠ .ok bl) : ∃ e, r = .error e := by
  cases r with
  | error e => exact ⟨e, rfl⟩
  | ok b => exact absurd rfl (h b)

/-! ### Analysis of `LSTMClassifier.init` -/

theorem init_eq_ok_iff (cfg : Config) (rng : Rng) (m : LSTMClassifier) :
    LSTMClassifier.init cfg rng = .ok m ↔
      validChecks cfg ∧ m = LSTMClassifier.initModel cfg rng := by
  unfold LSTMClassifier.init
  split_ifs with h1 h2 h3 h4 h5 h6 h7 h8 <;>
    simp_all [validChecks, eq_comm]

theorem init_isOk_iff (cfg : Config) (rng : Rng) :
    (LSTMClassifier.init cfg rng).isOk = true ↔ validChecks cfg := by
  constructor
  · intro h
    cases hinit : LSTMClassifier.init cfg rng with
    | error e => rw [hinit] at h; exact Bool.noConfusion h
    | ok m => exact ((init_eq_ok_iff cfg rng m).mp hinit).1
  · intro h
    rw [(init_eq_ok_iff cfg rng _).mpr ⟨h, rfl⟩]
    rfl

/-! ### Projections of the constructed model -/

theorem initModel_fc_weight (cfg : Config) (rng : Rng) :
    (LSTMClassifier.initModel cfg rng).fc_weight =
      fillMat (rng ("fc.weight")) cfg.output_dim.toNat
        (cfg.hidden_dim.toNat * (if cfg.bidirectional then 2 else 1)) := by
  have h : (LSTMClassifier.initModel cfg rng).fc_weight
      = dispatchMat rng ("fc.weight") cfg.output_dim.toNat
          (cfg.hidden_dim.toNat * (if cfg.bidirectional then 2 else 1))
          ((LSTMClassifier.baseModel cfg rng).fc_weight) := rfl
  rw [h, dispatchMat_weight _ _ _ _ _ (by decide)]

theorem initModel_fc_bias (cfg : Config) (rng : Rng) :
    (LSTMClassifier.initModel cfg rng).fc_bias = List.replicate cfg.output_dim.toNat 0 := by
  have h : (LSTMClassifier.initModel cfg rng).fc_bias
      = dispatchVec rng ("fc.bias") cfg.output_dim.toNat
          ((LSTMClassifier.baseModel cfg rng).fc_bias) := rfl
  rw [h, dispatchVec]
  rw [show strContains ("fc.bias") ("weight") = false from by decide]
  rw [show strContains ("fc.bias") ("bias") = true from by decide]
  simp

theorem initModel_embedding_weight (cfg : Config) (rng : Rng) :
    (LSTMClassifier.initModel cfg rng).embedding_weight =
      fillMat (rng ("embedding.weight")) cfg.vocab_size.toNat cfg.embedding_dim.toNat := by
  have h : (LSTMClassifier.initModel cfg rng).embedding_weight
      = dispatchMat rng ("embedding.weight") cfg.vocab_size.toNat cfg.embedding_dim.toNat
          ((LSTMClassifier.baseModel cfg rng).embedding_weight) := rfl
  rw [h, dispatchMat_weight _ _ _ _ _ (by decide)]

theorem initModel_layers (cfg : Config) (rng : Rng) :
    (LSTMClassifier.initModel cfg rng).layers =
      enumMap (fun l pq =>
        (initLayerParams rng cfg.hidden_dim.toNat
            (lstmInDim cfg.embedding_dim.toNat cfg.hidden_dim.toNat cfg.bidirectional l) l false pq.1,
         pq.2.map (initLayerParams rng cfg.hidden_dim.toNat
            (lstmInDim cfg.embedding_dim.toNat cfg.hidden_dim.toNat cfg.bidirectional l) l true)))
        ((LSTMClassifier.baseModel cfg rng).layers) := rfl

/-! ### Claim theorems -/

/-- **C1** (code bug, concrete evaluation): for the valid configuration
`cfgSmall` (padding index `0`) and generic nonzero draws, construction
succeeds, the padding row of the embedding table is the zero vector right
before `_init_weights` runs (set by `nn.Embedding`), but after the
post-construction initialisation pass it is NOT the zero vector:
`xavier_uniform_` re-filled the whole of `embedding.weight`, padding row
included, because `'weight' in 'embedding.weight'`. -/
theorem padding_row_nonzero_after_construction :
    LSTMClassifier.init cfgSmall rngOne =
      Except.ok (LSTMClassifier.initModel cfgSmall rngOne) ∧
    (LSTMClassifier.baseModel cfgSmall rngOne).embedding_weight.getD
        (LSTMClassifier.baseModel cfgSmall rngOne).padding_idx []
      = List.replicate (LSTMClassifier.baseModel cfgSmall rngOne).embedding_dim 0 ∧
    (LSTMClassifier.initModel cfgSmall rngOne).embedding_weight.getD
        (LSTMClassifier.initModel cfgSmall rngOne).padding_idx []
      ≠ List.replicate (LSTMClassifier.initModel cfgSmall rngOne).embedding_dim 0 :=
  ⟨rfl, by decide, by decide⟩

/-- **C2** (counterexample): `cfgInvalidOk` is invalid per the claim in three
independent ways — `padding_idx = -1` is outside `[0, vocab_size)`,
`output_dim = 0 < 1`, and `dropout_rate = 1` is outside `[0,1)` — yet
construction succeeds (PyTorch normalises the negative padding index to
`vocab_size - 1`, accepts `out_features = 0`, and accepts `p = 1`). -/
theorem construction_accepts_invalid_config :
    cfgInvalidOk.padding_idx < 0 ∧ cfgInvalidOk.output_dim < 1 ∧
    1 ≤ cfgInvalidOk.dropout_rate ∧
    (LSTMClassifier.init cfgInvalidOk rngOne).isOk = true ∧
    (LSTMClassifier.initModel cfgInvalidOk rngOne).padding_idx = 4 :=
  ⟨by decide, by decide, by decide, by decide, by decide⟩

/-- **C2** (amended): for positive `embedding_dim`, `hidden_dim` and
`num_layers`, construction succeeds iff the padding index lies in
`[-vocab_size, vocab_size)` (negative values are silently normalised to
`vocab_size + padding_idx`, which also forces `vocab_size ≥ 1`), the output
dimension is ≥ 0, and the dropout probability lies in the closed interval
`[0, 1]`; every configuration outside this set raises. -/
theorem construction_validation_iff (cfg : Config) (rng : Rng)
    (hE : 1 ≤ cfg.embedding_dim) (hH : 1 ≤ cfg.hidden_dim) (hL : 1 ≤ cfg.num_layers) :
    (LSTMClassifier.init cfg rng).isOk = true ↔
      (-cfg.vocab_size ≤ cfg.padding_idx ∧ cfg.padding_idx < cfg.vocab_size ∧
       0 ≤ cfg.output_dim ∧ 0 ≤ cfg.dropout_rate ∧ cfg.dropout_rate ≤ 1) := by
  rw [init_isOk_iff]
  constructor
  · rintro ⟨ha, hb, ⟨hc1, hc2⟩, -, -, -, hg, hh⟩
    unfold LSTMClassifier.embeddingAssert at ha
    unfold LSTMClassifier.paddingNorm at hc1 hc2
    refine ⟨?_, ?_, by omega, hh.1, hh.2⟩
    · by_cases hp : cfg.padding_idx < 0
      · rw [if_pos hp] at hc1; omega
      · omega
    · by_cases hp : cfg.padding_idx < 0
      · omega
      · rw [if_neg hp] at hc2; omega
  · rintro ⟨h1, h2, h3, h4, h5⟩
    refine ⟨?_, by omega, ⟨?_, ?_⟩, by omega, by omega, ?_, by omega, ⟨h4, h5⟩⟩
    · unfold LSTMClassifier.embeddingAssert
      split_ifs <;> omega
    · unfold LSTMClassifier.paddingNorm
      split_ifs <;> omega
    · unfold LSTMClassifier.paddingNorm
      split_ifs <;> omega
    · unfold LSTMClassifier.lstmDropoutArg
      split_ifs
      · exact ⟨h4, h5⟩
      · norm_num

/-- Witness for `construction_validation_iff`: the hypotheses hold at
`cfgSmall`, whose values satisfy the amended validity condition, so
construction succeeds. -/
theorem construction_validation_iff_witness :
    (LSTMClassifier.init cfgSmall rngOne).isOk = true :=
  (construction_validation_iff cfgSmall rngOne (by decide) (by decide) (by decide)).mpr
    ⟨by decide, by decide, by decide, by decide, by decide⟩

/-- **C4.** For every configuration the constructor accepts, the projection
head's input dimension equals `hidden_dim` when unidirectional and
`2·hidden_dim` when bidirectional — both as the stored `in_features` of
`self.fc` and as the width of every row of its weight matrix — and its row
count is `output_dim`; all fixed at construction time. -/
theorem fc_input_dim_eq (cfg : Config) (rng : Rng) (m : LSTMClassifier)
    (h : LSTMClassifier.init cfg rng = .ok m) :
    m.fc_in_features =
      (if cfg.bidirectional then 2 * cfg.hidden_dim.toNat else cfg.hidden_dim.toNat) ∧
    m.fc_weight.length = cfg.output_dim.toNat ∧
    (∀ row ∈ m.fc_weight, row.length = m.fc_in_features) := by
  obtain ⟨-, rfl⟩ := (init_eq_ok_iff cfg rng m).mp h
  refine ⟨?_, ?_, ?_⟩
  · show cfg.hidden_dim.toNat * (if cfg.bidirectional then 2 else 1) = _
    cases cfg.bidirectional <;> simp [Nat.mul_comm]
  · rw [initModel_fc_weight]
    exact fillMat_length _ _ _
  · rw [initModel_fc_weight]
    intro row hrow
    exact fillMat_row_length _ _ _ row hrow

/-- Witness for `fc_input_dim_eq` at the concrete configuration `cfgSmall`. -/
theorem fc_input_dim_eq_witness :
    (LSTMClassifier.initModel cfgSmall rngOne).fc_in_features =
      (if cfgSmall.bidirectional then 2 * cfgSmall.hidden_dim.toNat
       else cfgSmall.hidden_dim.toNat) ∧
    (LSTMClassifier.initModel cfgSmall rngOne).fc_weight.length =
      cfgSmall.output_dim.toNat ∧
    (∀ row ∈ (LSTMClassifier.initModel cfgSmall rngOne).fc_weight,
       row.length = (LSTMClassifier.initModel cfgSmall rngOne).fc_in_features) :=
  fc_input_dim_eq cfgSmall rngOne _ rfl

/-- **C5.** The recurrent encoder's inter-layer dropout probability is the
given `dropout_rate` exactly when `num_layers > 1`, and `0` when
`num_layers = 1` — and, structurally, a single-layer stack never consults
the inter-layer dropout mask at all (its output is mask-independent, in
training mode too). -/
theorem single_layer_no_interlayer_dropout (cfg : Config) (rng : Rng) (m : LSTMClassifier)
    (h : LSTMClassifier.init cfg rng = .ok m) :
    m.lstm_dropout = (if 1 < cfg.num_layers then cfg.dropout_rate else 0) ∧
    (cfg.num_layers = 1 → m.lstm_dropout = 0) ∧
    (∀ (σ τ : ℚ → ℚ) (tr : Bool) (pd : ℚ) (mask mask' : Nat → Nat → Nat → Bool)
       (li li' : Nat) (ℓ : LSTMLayer) (xs : List Vec),
       lstmStack σ τ m.hidden_dim tr pd mask li [ℓ] xs
         = lstmStack σ τ m.hidden_dim tr pd mask' li' [ℓ] xs) := by
  obtain ⟨-, rfl⟩ := (init_eq_ok_iff cfg rng m).mp h
  refine ⟨rfl, ?_, ?_⟩
  · intro hL
    show LSTMClassifier.lstmDropoutArg cfg = 0
    unfold LSTMClassifier.lstmDropoutArg
    rw [hL]
    norm_num
  · intro σ τ tr pd mask mask' li li' ℓ xs
    rfl

/-- Witness for `single_layer_no_interlayer_dropout` at `cfgSmall`
(`num_layers = 1`): the configured inter-layer dropout is `0`. -/
theorem single_layer_no_interlayer_dropout_witness :
    (LSTMClassifier.initModel cfgSmall rngOne).lstm_dropout =
      (if 1 < cfgSmall.num_layers then cfgSmall.dropout_rate else 0) ∧
    (cfgSmall.num_layers = 1 → (LSTMClassifier.initModel cfgSmall rngOne).lstm_dropout = 0) ∧
    (∀ (σ τ : ℚ → ℚ) (tr : Bool) (pd : ℚ) (mask mask' : Nat → Nat → Nat → Bool)
       (li li' : Nat) (ℓ : LSTMLayer) (xs : List Vec),
       lstmStack σ τ (LSTMClassifier.initModel cfgSmall rngOne).hidden_dim tr pd mask li [ℓ] xs
         = lstmStack σ τ (LSTMClassifier.initModel cfgSmall rngOne).hidden_dim tr pd mask' li' [ℓ] xs) :=
  single_layer_no_interlayer_dropout cfgSmall rngOne _ rfl

theorem initLayerParams_eq (rng : Rng) (H inDim l : Nat) (rev : Bool) (p : LSTMLayerParams) :
    initLayerParams rng H inDim l rev p =
      { weight_ih := fillMat (rng (lstmParamName ("weight_ih") l rev)) (4 * H) inDim
        weight_hh := fillMat (rng (lstmParamName ("weight_hh") l rev)) (4 * H) H
        bias_ih := List.replicate (4 * H) 0
        bias_hh := List.replicate (4 * H) 0 } := by
  unfold initLayerParams
  rw [dispatchMat_weight _ _ _ _ _ (weight_ih_name_contains l rev),
      dispatchMat_weight _ _ _ _ _ (weight_hh_name_contains l rev),
      dispatchVec_lstm_bias _ _ _ _ _ _ (bias_ih_name_not_weight l rev)
        (bias_name_contains_bias _ l rev (by decide)),
      dispatchVec_lstm_bias _ _ _ _ _ _ (bias_hh_name_not_weight l rev)
        (bias_name_contains_bias _ l rev (by decide))]

/-- **C3.** Immediately after construction, every parameter whose registered
name marks it a bias tensor is exactly zero in every entry, and every
parameter marked a weight tensor was re-sampled entrywise by
`xavier_uniform_` — so, whenever every sampled value is nonzero (a
probability-one event for continuous Xavier sampling), no weight tensor is
uniformly zero. -/
theorem init_biases_zero_weights_nonzero (cfg : Config) (rng : Rng) (m : LSTMClassifier)
    (h : LSTMClassifier.init cfg rng = .ok m)
    (hE : 1 ≤ cfg.embedding_dim) (hH : 1 ≤ cfg.hidden_dim) (hO : 1 ≤ cfg.output_dim)
    (hrng : ∀ s i j, rng s i j ≠ 0) :
    (allZero m.fc_bias ∧
     ∀ pq ∈ m.layers,
       allZero pq.1.bias_ih ∧ allZero pq.1.bias_hh ∧
       ∀ pb, pq.2 = some pb → allZero pb.bias_ih ∧ allZero pb.bias_hh) ∧
    (hasNonzero m.embedding_weight ∧ hasNonzero m.fc_weight ∧
     ∀ pq ∈ m.layers,
       hasNonzero pq.1.weight_ih ∧ hasNonzero pq.1.weight_hh ∧
       ∀ pb, pq.2 = some pb → hasNonzero pb.weight_ih ∧ hasNonzero pb.weight_hh) := by
  obtain ⟨hv, rfl⟩ := (init_eq_ok_iff cfg rng m).mp h
  have hVN : 0 < cfg.vocab_size.toNat := by
    have := hv.2.2.1
    omega
  have hEN : 0 < cfg.embedding_dim.toNat := by omega
  have hHN : 0 < cfg.hidden_dim.toNat := by omega
  have hON : 0 < cfg.output_dim.toNat := by omega
  have hIn : ∀ k, 0 < lstmInDim cfg.embedding_dim.toNat cfg.hidden_dim.toNat cfg.bidirectional k := by
    intro k
    unfold lstmInDim
    split_ifs <;> omega
  constructor
  · constructor
    · rw [initModel_fc_bias]
      exact allZero_replicate _
    · intro pq hpq
      rw [initModel_layers] at hpq
      obtain ⟨k, a, -, rfl⟩ := enumMap_mem hpq
      refine ⟨?_, ?_, ?_⟩
      · rw [initLayerParams_eq]
        exact allZero_replicate _
      · rw [initLayerParams_eq]
        exact allZero_replicate _
      · intro pb hpb
        rcases Option.map_eq_some'.mp hpb with ⟨x, -, rfl⟩
        rw [initLayerParams_eq]
        exact ⟨allZero_replicate _, allZero_replicate _⟩
  · refine ⟨?_, ?_, ?_⟩
    · rw [initModel_embedding_weight]
      exact fillMat_hasNonzero _ _ _ hVN hEN (hrng _ 0 0)
    · rw [initModel_fc_weight]
      refine fillMat_hasNonzero _ _ _ hON ?_ (hrng _ 0 0)
      cases cfg.bidirectional <;> simp <;> omega
    · intro pq hpq
      rw [initModel_layers] at hpq
      obtain ⟨k, a, -, rfl⟩ := enumMap_mem hpq
      refine ⟨?_, ?_, ?_⟩
      · rw [initLayerParams_eq]
        exact fillMat_hasNonzero _ _ _ (by omega) (hIn k) (hrng _ 0 0)
      · rw [initLayerParams_eq]
        exact fillMat_hasNonzero _ _ _ (by omega) hHN (hrng _ 0 0)
      · intro pb hpb
        rcases Option.map_eq_some'.mp hpb with ⟨x, -, rfl⟩
        rw [initLayerParams_eq]
        exact ⟨fillMat_hasNonzero _ _ _ (by omega) (hIn k) (hrng _ 0 0),
               fillMat_hasNonzero _ _ _ (by omega) hHN (hrng _ 0 0)⟩

/-- Witness for `init_biases_zero_weights_nonzero` at `cfgSmall` with the
constant-one draw oracle. -/
theorem init_biases_zero_weights_nonzero_witness :
    (allZero (LSTMClassifier.initModel cfgSmall rngOne).fc_bias ∧
     ∀ pq ∈ (LSTMClassifier.initModel cfgSmall rngOne).layers,
       allZero pq.1.bias_ih ∧ allZero pq.1.bias_hh ∧
       ∀ pb, pq.2 = some pb → allZero pb.bias_ih ∧ allZero pb.bias_hh) ∧
    (hasNonzero (LSTMClassifier.initModel cfgSmall rngOne).embedding_weight ∧
     hasNonzero (LSTMClassifier.initModel cfgSmall rngOne).fc_weight ∧
     ∀ pq ∈ (LSTMClassifier.initModel cfgSmall rngOne).layers,
       hasNonzero pq.1.weight_ih ∧ hasNonzero pq.1.weight_hh ∧
       ∀ pb, pq.2 = some pb → hasNonzero pb.weight_ih ∧ hasNonzero pb.weight_hh) :=
  init_biases_zero_weights_nonzero cfgSmall rngOne _ rfl (by decide) (by decide) (by decide)
    (fun _ _ _ => one_ne_zero)

/-- **C9.** Whenever the input tensor holds any negative index or any index
`≥ vocab_size`, `forward` fails: the `IndexError` from the embedding lookup
propagates (the unwrapped `Except` chain adds no validation and no recovery),
for every model state, mode and dropout masks. -/
theorem forward_fails_on_bad_index (σ τ : ℚ → ℚ) (m : LSTMClassifier)
    (dmask : Nat → Nat → Nat → Bool) (lmask : Nat → Nat → Nat → Nat → Bool)
    (x : List (List Int)) (row : List Int) (i : Int)
    (hrow : row ∈ x) (hi : i ∈ row) (hbad : i < 0 ∨ (m.vocab_size : Int) ≤ i) :
    ∃ e, LSTMClassifier.forward σ τ m dmask lmask x = .error e := by
  have hlk : ∀ b, LSTMClassifier.embedLookup m i ≠ .ok b := by
    intro b hok
    unfold LSTMClassifier.embedLookup at hok
    rw [if_neg (by omega)] at hok
    exact Except.noConfusion hok
  have hrowfail : ∀ bl, seqMap (LSTMClassifier.embedLookup m) row ≠ .ok bl :=
    seqMap_not_ok hi hlk
  have hallfail : ∀ bll,
      seqMap (fun r => seqMap (LSTMClassifier.embedLookup m) r) x ≠ .ok bll :=
    seqMap_not_ok hrow hrowfail
  obtain ⟨e, he⟩ := not_ok_error hallfail
  refine ⟨e, ?_⟩
  unfold LSTMClassifier.forward
  rw [he]
  rfl

/-- Witness for `forward_fails_on_bad_index`: the model built from `cfgSmall`
(vocabulary size 2) rejects the input `[[0, 2]]`. -/
theorem forward_fails_on_bad_index_witness :
    ∃ e, LSTMClassifier.forward id id (LSTMClassifier.initModel cfgSmall rngOne)
      (fun _ _ _ => true) (fun _ _ _ _ => true) [[0, 2]] = .error e :=
  forward_fails_on_bad_index id id (LSTMClassifier.initModel cfgSmall rngOne)
    (fun _ _ _ => true) (fun _ _ _ _ => true) [[0, 2]] [0, 2] 2
    (by decide) (by decide) (by decide)

/-! ### Eval mode disables dropout -/

theorem dropoutVal_eval (p : ℚ) (keep : Bool) (v : ℚ) : dropoutVal false p keep v = v := by
  simp [dropoutVal]

theorem dropoutMat_eval (p : ℚ) (mask : Nat → Nat → Bool) (xs : Mat) :
    dropoutMat false p mask xs = xs := by
  unfold dropoutMat
  have h : ∀ (t : Nat) (row : Vec),
      enumMap (fun j v => dropoutVal false p (mask t j) v) row = row := by
    intro t row
    calc enumMap (fun j v => dropoutVal false p (mask t j) v) row
        = enumMap (fun _ v => v) row := enumMap_congr (fun n a => dropoutVal_eval _ _ _) row
      _ = row := enumMapFrom_id 0 row
  calc enumMap (fun t row => enumMap (fun j v => dropoutVal false p (mask t j) v) row) xs
      = enumMap (fun _ row => row) xs := enumMap_congr (fun t row => h t row) xs
    _ = xs := enumMapFrom_id 0 xs

theorem enumMap_id (l : List α) : enumMap (fun _ a => a) l = l := enumMapFrom_id 0 l

theorem lstmStack_cons (σ τ : ℚ → ℚ) (H : Nat) (tr : Bool) (pd : ℚ)
    (mask : Nat → Nat → Nat → Bool) (li : Nat) (ℓ : LSTMLayer) (rest : List LSTMLayer)
    (xs : List Vec) :
    lstmStack σ τ H tr pd mask li (ℓ :: rest) xs =
      ((lstmStack σ τ H tr pd mask (li + 1) rest
          (match rest with
           | [] => (lstmApplyLayer σ τ H ℓ xs).1
           | _ :: _ => dropoutMat tr pd (mask li) (lstmApplyLayer σ τ H ℓ xs).1)).1,
       (lstmApplyLayer σ τ H ℓ xs).2 ++
         (lstmStack σ τ H tr pd mask (li + 1) rest
           (match rest with
            | [] => (lstmApplyLayer σ τ H ℓ xs).1
            | _ :: _ => dropoutMat tr pd (mask li) (lstmApplyLayer σ τ H ℓ xs).1)).2) := rfl

theorem lstmStack_eval_mask_irrel (σ τ : ℚ → ℚ) (H : Nat) (pd : ℚ)
    (mask mask' : Nat → Nat → Nat → Bool) :
    ∀ (ls : List LSTMLayer) (li li' : Nat) (xs : List Vec),
      lstmStack σ τ H false pd mask li ls xs = lstmStack σ τ H false pd mask' li' ls xs := by
  intro ls
  induction ls with
  | nil => intro li li' xs; rfl
  | cons ℓ rest ih =>
    intro li li' xs
    cases rest with
    | nil => rfl
    | cons ℓ2 rest2 =>
      conv_lhs => rw [lstmStack_cons]
      conv_rhs => rw [lstmStack_cons]
      dsimp only
      rw [dropoutMat_eval, dropoutMat_eval, ih (li + 1) (li' + 1)]

/-- **C8.** In inference mode (`training = false`) the forward pass is a
deterministic function of the input and the parameters: its result does not
depend on the embedding-dropout draws nor on the LSTM inter-layer dropout
draws (both dropouts are the identity, not merely rescaled), so two calls
with identical input yield identical output. -/
theorem forward_eval_deterministic (σ τ : ℚ → ℚ) (m : LSTMClassifier)
    (dmask dmask' : Nat → Nat → Nat → Bool) (lmask lmask' : Nat → Nat → Nat → Nat → Bool)
    (x : List (List Int)) (h : m.training = false) :
    LSTMClassifier.forward σ τ m dmask lmask x
      = LSTMClassifier.forward σ τ m dmask' lmask' x ∧
    (∀ (p : ℚ) (keep : Bool) (v : ℚ), dropoutVal m.training p keep v = v) := by
  refine ⟨?_, by rw [h]; exact fun p keep v => dropoutVal_eval p keep v⟩
  unfold LSTMClassifier.forward
  rw [h]
  cases hemb : seqMap (fun r => seqMap (LSTMClassifier.embedLookup m) r) x with
  | error e => rfl
  | ok embedded =>
    show Except.ok _ = Except.ok _
    congr 1
    rw [enumMap_congr (fun b seq => dropoutMat_eval m.dropout_p (dmask b) seq) embedded,
        enumMap_congr (fun b seq => dropoutMat_eval m.dropout_p (dmask' b) seq) embedded,
        enumMap_id]
    refine enumMap_congr (fun b seq => ?_) embedded
    unfold lstmFinalStates
    rw [lstmStack_eval_mask_irrel σ τ m.hidden_dim m.lstm_dropout (lmask b) (lmask' b)
        m.layers 0 0 seq]

/-- Witness for `forward_eval_deterministic`: after `eval()`, the model built
from `cfgSmall` gives mask-independent results on `[[0, 1]]`. -/
theorem forward_eval_deterministic_witness :
    LSTMClassifier.forward id id (LSTMClassifier.eval (LSTMClassifier.initModel cfgSmall rngOne))
        (fun _ _ _ => true) (fun _ _ _ _ => true) [[0, 1]]
      = LSTMClassifier.forward id id (LSTMClassifier.eval (LSTMClassifier.initModel cfgSmall rngOne))
        (fun _ _ _ => false) (fun _ _ _ _ => false) [[0, 1]] ∧
    (∀ (p : ℚ) (keep : Bool) (v : ℚ),
       dropoutVal (LSTMClassifier.eval (LSTMClassifier.initModel cfgSmall rngOne)).training p keep v = v) :=
  forward_eval_deterministic id id (LSTMClassifier.eval (LSTMClassifier.initModel cfgSmall rngOne))
    (fun _ _ _ => true) (fun _ _ _ => false) (fun _ _ _ _ => true) (fun _ _ _ _ => false)
    [[0, 1]] rfl

/-! ### Shape lemmas and last-layer selection -/

theorem vadd_length (a b : Vec) : (vadd a b).length = min a.length b.length :=
  List.length_zipWith _ _ _

theorem matVec_length (W : Mat) (v : Vec) : (matVec W v).length = W.length :=
  List.length_map _ _

theorem enumMap_enumMap (f : Nat → β → γ) (g : Nat → α → β) (l : List α) :
    enumMap f (enumMap g l) = enumMap (fun n a => f n (g n a)) l := by
  show enumMapFrom f 0 (enumMapFrom g 0 l) = enumMapFrom (fun n a => f n (g n a)) 0 l
  generalize 0 = n
  induction l generalizing n with
  | nil => rfl
  | cons a as ih => simp [enumMapFrom, ih]

theorem lstmApplyLayer_finals_length (σ τ : ℚ → ℚ) (H : Nat) (ℓ : LSTMLayer) (xs : List Vec) :
    (lstmApplyLayer σ τ H ℓ xs).2.length = (if ℓ.2.isSome then 2 else 1) := by
  rcases ℓ with ⟨pf, _ | pb⟩ <;> rfl

/-- A successful `forward` call unfolded: the logit row of batch element `b`
is the affine `fc` image of the hidden-state selection over the LSTM's final
states, computed on the dropped-out embedded sequence. -/
theorem forward_eq_ok (σ τ : ℚ → ℚ) (m : LSTMClassifier)
    (dmask : Nat → Nat → Nat → Bool) (lmask : Nat → Nat → Nat → Nat → Bool)
    (x : List (List Int)) (embedded : List Mat)
    (hemb : seqMap (fun row => seqMap (LSTMClassifier.embedLookup m) row) x = .ok embedded) :
    LSTMClassifier.forward σ τ m dmask lmask x = .ok (enumMap (fun b seq =>
      vadd
        (matVec m.fc_weight
          (classifierFeatures m.bidirectional
            (lstmFinalStates σ τ m.hidden_dim m.training m.lstm_dropout (lmask b) m.layers
              (dropoutMat m.training m.dropout_p (dmask b) seq))))
        m.fc_bias) embedded) := by
  unfold LSTMClassifier.forward
  rw [hemb]
  show Except.ok _ = Except.ok _
  congr 1
  exact enumMap_enumMap _ _ embedded

theorem lstmStack_finals_decomp (σ τ : ℚ → ℚ) (H : Nat) (tr : Bool) (pd : ℚ)
    (mask : Nat → Nat → Nat → Bool) :
    ∀ (ls : List LSTMLayer) (ℓ : LSTMLayer) (li : Nat) (xs : List Vec), ∃ ys inp,
      (lstmStack σ τ H tr pd mask li (ls ++ [ℓ]) xs).2
        = ys ++ (lstmApplyLayer σ τ H ℓ inp).2 := by
  intro ls
  induction ls with
  | nil =>
    intro ℓ li xs
    refine ⟨[], xs, ?_⟩
    rw [List.nil_append, lstmStack_cons]
    simp [lstmStack]
  | cons ℓ0 rest ih =>
    intro ℓ li xs
    rw [List.cons_append, lstmStack_cons]
    have hout : (match rest ++ [ℓ] with
        | [] => (lstmApplyLayer σ τ H ℓ0 xs).1
        | _ :: _ => dropoutMat tr pd (mask li) (lstmApplyLayer σ τ H ℓ0 xs).1)
        = dropoutMat tr pd (mask li) (lstmApplyLayer σ τ H ℓ0 xs).1 := by
      cases rest <;> rfl
    rw [hout]
    obtain ⟨ys, inp, hy⟩ :=
      ih ℓ (li + 1) (dropoutMat tr pd (mask li) (lstmApplyLayer σ τ H ℓ0 xs).1)
    refine ⟨(lstmApplyLayer σ τ H ℓ0 xs).2 ++ ys, inp, ?_⟩
    rw [hy, List.append_assoc]

theorem classifierFeatures_append (bidir : Bool) (a b : List Vec)
    (hb : b.length = (if bidir then 2 else 1)) :
    classifierFeatures bidir (a ++ b) = classifierFeatures bidir b := by
  cases bidir
  · have hb1 : b.length = 1 := by simpa using hb
    obtain ⟨v, rfl⟩ := List.length_eq_one.mp hb1
    unfold classifierFeatures
    rw [if_neg Bool.false_ne_true, if_neg Bool.false_ne_true, List.getLastD_concat]
    rfl
  · have hb2 : b.length = 2 := by simpa using hb
    match b, hb2 with
    | [u, v], _ =>
      unfold classifierFeatures
      rw [if_pos rfl, if_pos rfl]
      have h1 : a ++ [u, v] = (a ++ [u]) ++ [v] := by simp
      rw [h1, List.dropLast_concat, List.getLastD_concat, List.getLastD_concat]
      rfl

/-- **C6.** Only the last recurrent layer's final hidden state(s) feed the
classifier: (i) the hidden-state selection reads nothing but the final
per-direction block of `h_n`; (ii) for every stacked run, that block is
exactly the last layer's final states, so every earlier layer's final states
are discarded; (iii) bidirectionally the two directions' final states are
concatenated feature-wise, unidirectionally the single final state is used
directly; (iv) `forward` computes its logits by applying `self.fc` to
precisely this selection of the stack's final states. -/
theorem classifier_uses_last_layer_only (σ τ : ℚ → ℚ) :
    (∀ (bidir : Bool) (a b : List Vec), b.length = (if bidir then 2 else 1) →
       classifierFeatures bidir (a ++ b) = classifierFeatures bidir b) ∧
    (∀ (H : Nat) (tr : Bool) (pd : ℚ) (mask : Nat → Nat → Nat → Bool)
       (ls : List LSTMLayer) (ℓ : LSTMLayer) (li : Nat) (xs : List Vec), ∃ inp,
       classifierFeatures ℓ.2.isSome ((lstmStack σ τ H tr pd mask li (ls ++ [ℓ]) xs).2)
         = classifierFeatures ℓ.2.isSome ((lstmApplyLayer σ τ H ℓ inp).2)) ∧
    (∀ hf hb : Vec,
       classifierFeatures true [hf, hb] = hf ++ hb ∧ classifierFeatures false [hf] = hf) ∧
    (∀ (m : LSTMClassifier) (dmask : Nat → Nat → Nat → Bool)
       (lmask : Nat → Nat → Nat → Nat → Bool) (x : List (List Int)) (embedded : List Mat),
       seqMap (fun row => seqMap (LSTMClassifier.embedLookup m) row) x = .ok embedded →
       LSTMClassifier.forward σ τ m dmask lmask x = .ok (enumMap (fun b seq =>
         vadd
           (matVec m.fc_weight
             (classifierFeatures m.bidirectional
               (lstmFinalStates σ τ m.hidden_dim m.training m.lstm_dropout (lmask b) m.layers
                 (dropoutMat m.training m.dropout_p (dmask b) seq))))
           m.fc_bias) embedded)) := by
  refine ⟨classifierFeatures_append, ?_, ?_, ?_⟩
  · intro H tr pd mask ls ℓ li xs
    obtain ⟨ys, inp, hy⟩ := lstmStack_finals_decomp σ τ H tr pd mask ls ℓ li xs
    refine ⟨inp, ?_⟩
    rw [hy,
        classifierFeatures_append _ _ _ (lstmApplyLayer_finals_length σ τ H ℓ inp)]
  · intro hf hb
    exact ⟨rfl, rfl⟩
  · intro m dmask lmask x embedded hemb
    exact forward_eq_ok σ τ m dmask lmask x embedded hemb

/-- Witness for `classifier_uses_last_layer_only`: each conjunct applied at
concrete inputs (unidirectional features over an explicit `h_n`, a singleton
stack, explicit concatenation, and a real forward call of the `cfgSmall`
model). -/
theorem classifier_uses_last_layer_only_witness :
    (classifierFeatures false ([[5]] ++ [[7]]) = classifierFeatures false [[7]]) ∧
    (∃ inp, classifierFeatures (⟨⟨[], [], [], []⟩, none⟩ : LSTMLayer).2.isSome
        ((lstmStack id id 1 false 0 (fun _ _ _ => true) 0
          ([] ++ [(⟨⟨[], [], [], []⟩, none⟩ : LSTMLayer)]) []).2)
      = classifierFeatures (⟨⟨[], [], [], []⟩, none⟩ : LSTMLayer).2.isSome
        ((lstmApplyLayer id id 1 (⟨⟨[], [], [], []⟩, none⟩ : LSTMLayer) inp).2)) ∧
    (classifierFeatures true [[1], [2]] = [1] ++ [2] ∧ classifierFeatures false [[1]] = [1]) ∧
    (LSTMClassifier.forward id id (LSTMClassifier.initModel cfgSmall rngOne)
        (fun _ _ _ => true) (fun _ _ _ _ => true) [[0]]
      = .ok (enumMap (fun b seq =>
          vadd
            (matVec (LSTMClassifier.initModel cfgSmall rngOne).fc_weight
              (classifierFeatures (LSTMClassifier.initModel cfgSmall rngOne).bidirectional
                (lstmFinalStates id id (LSTMClassifier.initModel cfgSmall rngOne).hidden_dim
                  (LSTMClassifier.initModel cfgSmall rngOne).training
                  (LSTMClassifier.initModel cfgSmall rngOne).lstm_dropout
                  ((fun _ _ _ _ => true) b) (LSTMClassifier.initModel cfgSmall rngOne).layers
                  (dropoutMat (LSTMClassifier.initModel cfgSmall rngOne).training
                    (LSTMClassifier.initModel cfgSmall rngOne).dropout_p
                    ((fun _ _ _ => true) b) seq))))
            (LSTMClassifier.initModel cfgSmall rngOne).fc_bias)
          [[[1]]])) :=
  ⟨(classifier_uses_last_layer_only id id).1 false [[5]] [[7]] rfl,
   (classifier_uses_last_layer_only id id).2.1 1 false 0 (fun _ _ _ => true) []
     (⟨⟨[], [], [], []⟩, none⟩ : LSTMLayer) 0 [],
   (classifier_uses_last_layer_only id id).2.2.1 [1] [2],
   (classifier_uses_last_layer_only id id).2.2.2 (LSTMClassifier.initModel cfgSmall rngOne)
     (fun _ _ _ => true) (fun _ _ _ _ => true) [[0]] [[[1]]] rfl⟩

/-- **C7.** For every accepted configuration and every input whose indices all
lie in `[0, vocab_size)`, `forward` succeeds, returning one logit row per
batch element, each of width exactly `output_dim`; and every returned row is
the bare affine image `fc_weight · v + fc_bias` of some hidden-feature vector
(no activation function applied). -/
theorem forward_output_shape (σ τ : ℚ → ℚ) (cfg : Config) (rng : Rng) (m : LSTMClassifier)
    (h : LSTMClassifier.init cfg rng = .ok m)
    (dmask : Nat → Nat → Nat → Bool) (lmask : Nat → Nat → Nat → Nat → Bool)
    (x : List (List Int))
    (hx : ∀ row ∈ x, ∀ i ∈ row, 0 ≤ i ∧ i < cfg.vocab_size) :
    ∃ y, LSTMClassifier.forward σ τ m dmask lmask x = .ok y ∧
      y.length = x.length ∧
      (∀ r ∈ y, r.length = cfg.output_dim.toNat) ∧
      (∀ r ∈ y, ∃ v, r = vadd (matVec m.fc_weight v) m.fc_bias) := by
  obtain ⟨hv, rfl⟩ := (init_eq_ok_iff cfg rng m).mp h
  have hVnn : 0 ≤ cfg.vocab_size := by
    have := hv.2.1
    omega
  have hVcast : ((LSTMClassifier.initModel cfg rng).vocab_size : Int) = cfg.vocab_size := by
    show ((cfg.vocab_size.toNat : Int)) = cfg.vocab_size
    omega
  have hlk : ∀ row ∈ x, ∃ er,
      seqMap (LSTMClassifier.embedLookup (LSTMClassifier.initModel cfg rng)) row = .ok er := by
    intro row hrow
    have hall : ∀ i ∈ row, ∃ b,
        LSTMClassifier.embedLookup (LSTMClassifier.initModel cfg rng) i = .ok b := by
      intro i hi
      have hcond : 0 ≤ i ∧ i < ((LSTMClassifier.initModel cfg rng).vocab_size : Int) :=
        ⟨(hx row hrow i hi).1, by rw [hVcast]; exact (hx row hrow i hi).2⟩
      exact ⟨_, by unfold LSTMClassifier.embedLookup; rw [if_pos hcond]⟩
    obtain ⟨er, her, -⟩ := seqMap_ok_of_forall hall
    exact ⟨er, her⟩
  obtain ⟨embedded, hemb, hlen⟩ := seqMap_ok_of_forall hlk
  refine ⟨_, forward_eq_ok σ τ _ dmask lmask x embedded hemb, ?_, ?_, ?_⟩
  · rw [enumMap_length, hlen]
  · intro r hr
    obtain ⟨b, seq, -, rfl⟩ := enumMap_mem hr
    rw [vadd_length, matVec_length, initModel_fc_weight, initModel_fc_bias,
        fillMat_length, List.length_replicate, Nat.min_self]
  · intro r hr
    obtain ⟨b, seq, -, rfl⟩ := enumMap_mem hr
    exact ⟨_, rfl⟩

/-- Witness for `forward_output_shape`: the `cfgSmall` model on the valid
batch `[[0, 1], [1, 0]]`. -/
theorem forward_output_shape_witness :
    ∃ y, LSTMClassifier.forward id id (LSTMClassifier.initModel cfgSmall rngOne)
        (fun _ _ _ => true) (fun _ _ _ _ => true) [[0, 1], [1, 0]] = .ok y ∧
      y.length = ([[0, 1], [1, 0]] : List (List Int)).length ∧
      (∀ r ∈ y, r.length = cfgSmall.output_dim.toNat) ∧
      (∀ r ∈ y, ∃ v, r = vadd (matVec (LSTMClassifier.initModel cfgSmall rngOne).fc_weight v)
         (LSTMClassifier.initModel cfgSmall rngOne).fc_bias) :=
  forward_output_shape id id cfgSmall rngOne _ rfl
    (fun _ _ _ => true) (fun _ _ _ _ => true) [[0, 1], [1, 0]] (by decide)

/-- **C10.** Every forward call runs the recurrent encoder from the implicit
all-zero initial hidden and cell states, and no state is carried between
calls: mapping `forward` over any sequence of calls gives, at each position,
exactly the value of `forward` on that call's input alone — the output is a
function of the input, parameters and mode only. -/
theorem forward_stateless (σ τ : ℚ → ℚ) :
    (∀ (H : Nat) (p : LSTMLayerParams) (xs : List Vec),
       lstmSeq σ τ H p xs
         = lstmSeqFrom σ τ H p (List.replicate H 0) (List.replicate H 0) xs) ∧
    (∀ (m : LSTMClassifier) (dmask : Nat → Nat → Nat → Bool)
       (lmask : Nat → Nat → Nat → Nat → Bool) (calls : List (List (List Int))) (i : Nat),
       (calls.map (fun c => LSTMClassifier.forward σ τ m dmask lmask c))[i]?
         = (calls[i]?).map (fun c => LSTMClassifier.forward σ τ m dmask lmask c)) :=
  ⟨fun _ _ _ => rfl, fun _ _ _ _calls _i => List.getElem?_map _ _ _⟩
